import Mathlib

/-!
Verification of the derived-metrics pipeline of the Citi Bikes strategy dashboard
(`Scripts/2.7 Refining and Presenting a Dashboard.py`).

Trips are modelled by their dates, a date by its serial day number (days since
1970-01-01), exactly as a pandas `Timestamp` is a serial number from which the
calendar fields (`month`, `day_name`, `to_period('M')`) are derived.  Monetary
floats of the script are modelled by `ℚ` (shares) and `ℤ` (the ranking-table
trip counts, integers per the data contract); all branch conditions in the
script compare integers, so every `if` below is decidable by computation.
-/

/-- Days-from-civil-date conversion (Gregorian calendar, serial day 0 =
1970-01-01).  Standard era-based algorithm; used only to write concrete dates
in examples, for years ≥ 1970. -/
def daysFromCivil (y m d : Nat) : Nat :=
  let y' := if m ≤ 2 then y - 1 else y
  let era := y' / 400
  let yoe := y' % 400
  let mp := if 2 < m then m - 3 else m + 9
  let doy := (153 * mp + 2) / 5 + d - 1
  let doe := yoe * 365 + yoe / 4 - yoe / 100 + doy
  era * 146097 + doe - 719468

/-- A civil (year, month, day) triple. -/
structure Civil where
  y : Nat
  m : Nat
  d : Nat

/-- Civil date of a serial day number (inverse of `daysFromCivil`); models how
pandas derives `.month` and `.year` from a timestamp. -/
def civilFromDays (z : Nat) : Civil :=
  let z' := z + 719468
  let era := z' / 146097
  let doe := z' % 146097
  let yoe := (doe - doe / 1460 + doe / 36524 - doe / 146096) / 365
  let y := yoe + era * 400
  let doy := doe - (365 * yoe + yoe / 4 - yoe / 100)
  let mp := (5 * doy + 2) / 153
  let d := doy - (153 * mp + 2) / 5 + 1
  let m := if mp < 10 then mp + 3 else mp - 9
  ⟨if m ≤ 2 then y + 1 else y, m, d⟩

/-- Month (1..12) of a trip date, as pandas `d.month`. -/
def monthOf (t : Nat) : Nat := (civilFromDays t).m

/-- Month period key, as pandas `to_period('M')` orders months: year*12 + (month-1). -/
def monthKeyOf (t : Nat) : Nat := (civilFromDays t).y * 12 + ((civilFromDays t).m - 1)

/-- `season_of` from the script: month → season name (lines 70-75). -/
def season_of (t : Nat) : String :=
  let m := monthOf t
  if m = 12 ∨ m = 1 ∨ m = 2 then "Winter"
  else if m = 3 ∨ m = 4 ∨ m = 5 then "Spring"
  else if m = 6 ∨ m = 7 ∨ m = 8 then "Summer"
  else "Fall"

/-- Day of week of a serial day; 0 = Sunday, …, 6 = Saturday (1970-01-01 was a
Thursday, day 4). Models pandas `day_name()`. -/
def dayOfWeek (t : Nat) : Nat := (t + 4) % 7

/-- `dow.isin(['Saturday','Sunday'])` from line 98 of the script. -/
def isWeekend (t : Nat) : Bool := dayOfWeek t == 0 || dayOfWeek t == 6

/-- Ordering of rows of a keyed frame by the numeric count column. -/
def pairLeN {α : Type} (a b : α × Nat) : Prop := a.2 ≤ b.2

instance {α : Type} : DecidableRel (@pairLeN α) :=
  fun a b => inferInstanceAs (Decidable (a.2 ≤ b.2))

instance {α : Type} : IsTotal (α × Nat) pairLeN := ⟨fun a b => Nat.le_total a.2 b.2⟩

instance {α : Type} : IsTrans (α × Nat) pairLeN := ⟨fun _ _ _ h h' => le_trans h h'⟩

/-- Ordering of rows of a keyed frame by an integer value column. -/
def pairLeZ {α : Type} (a b : α × Int) : Prop := a.2 ≤ b.2

instance {α : Type} : DecidableRel (@pairLeZ α) :=
  fun a b => inferInstanceAs (Decidable (a.2 ≤ b.2))

instance {α : Type} : IsTotal (α × Int) pairLeZ := ⟨fun a b => Int.le_total a.2 b.2⟩

instance {α : Type} : IsTrans (α × Int) pairLeZ := ⟨fun _ _ _ h h' => le_trans h h'⟩

/-- pandas `sort_values(by=count, ascending=False)`: `nargsort` computes the
stable ascending argsort and reverses the whole indexer, so ties come out in
reversed input order.  The numpy sort is insertion sort for the small frames
arising here, hence stable; `List.insertionSort` is the same function. -/
def sortValuesDescN {α : Type} (l : List (α × Nat)) : List (α × Nat) :=
  (l.insertionSort pairLeN).reverse

/-- Same `sort_values(ascending=False)` model for an integer value column. -/
def sortValuesDescZ {α : Type} (l : List (α × Int)) : List (α × Int) :=
  (l.insertionSort pairLeZ).reverse

/-- Codepoint-ordering of strings, Bool-valued so that it evaluates; models the
Python string order used by `groupby` on the season labels. -/
def charsLe : List Char → List Char → Bool
  | [], _ => true
  | _ :: _, [] => false
  | a :: as, b :: bs =>
    if a.toNat < b.toNat then true
    else if b.toNat < a.toNat then false
    else charsLe as bs

/-- The string order as a decidable relation for sorting group keys. -/
def strLeP (a b : String) : Prop := charsLe a.data b.data = true

instance : DecidableRel strLeP := fun a b =>
  inferInstanceAs (Decidable (charsLe a.data b.data = true))

/-- `df.groupby('date').size()` key list: distinct trip dates in ascending
order (groupby sorts its keys). -/
def dailyDates (trips : List Nat) : List Nat := (trips.insertionSort (· ≤ ·)).dedup

/-- `daily = df.groupby('date').size().reset_index(name='trips')` (line 80):
one row per distinct date, ascending, with the trip count of that date. -/
def daily (trips : List Nat) : List (Nat × Nat) :=
  (dailyDates trips).map fun d => (d, trips.count d)

/-- `Series.idxmax` followed by `.loc` (line 85): the first row attaining the
maximal count; `none` on an empty frame (pandas raises `ValueError`). -/
def idxmaxRow : List (Nat × Nat) → Option (Nat × Nat)
  | [] => none
  | x :: xs =>
    match idxmaxRow xs with
    | none => some x
    | some y => if y.2 ≤ x.2 then some x else some y

/-- `daily['trips'].mean()` (line 83). -/
def avgDaily (trips : List Nat) : ℚ :=
  (((daily trips).map fun p => p.2).sum : ℚ) / ((daily trips).length : ℚ)

/-- `Series.median()` of the daily counts (line 84). -/
def medianOf (l : List Nat) : ℚ :=
  let s := l.insertionSort (· ≤ ·)
  if s.length = 0 then 0
  else if s.length % 2 = 1 then (s.getD (s.length / 2) 0 : ℚ)
  else ((s.getD (s.length / 2 - 1) 0 : ℚ) + (s.getD (s.length / 2) 0 : ℚ)) / 2

/-- `groupby(key).sum()` over a keyed count list: one row per distinct key in
ascending key order, holding the summed counts of that key. -/
def groupSum (l : List (Nat × Nat)) : List (Nat × Nat) :=
  (((l.map fun p => p.1).insertionSort (· ≤ ·)).dedup).map
    fun k => (k, ((l.filter fun p => p.1 == k).map fun p => p.2).sum)

/-- `monthly` (line 91): daily counts summed per month period. -/
def monthly (trips : List Nat) : List (Nat × Nat) :=
  groupSum ((daily trips).map fun p => (monthKeyOf p.1, p.2))

/-- `monthly_sorted = monthly.sort_values('trips', ascending=False)` (line 93). -/
def monthlySorted (trips : List Nat) : List (Nat × Nat) :=
  sortValuesDescN (monthly trips)

/-- `seasonal = df.groupby('season').size()...sort_values(ascending=False)`
(line 94): counts of the season labels that occur, sorted descending. -/
def seasonal (trips : List Nat) : List (String × Nat) :=
  sortValuesDescN
    ((((trips.map season_of).insertionSort strLeP).dedup).map
      fun s => (s, (trips.map season_of).count s))

/-- `weekend_total` (line 99): summed counts of the weekend rows of `daily`. -/
def weekendTotal (trips : List Nat) : Nat :=
  (((daily trips).filter fun p => isWeekend p.1).map fun p => p.2).sum

/-- `weekday_total` (line 100). -/
def weekdayTotal (trips : List Nat) : Nat :=
  (((daily trips).filter fun p => !isWeekend p.1).map fun p => p.2).sum

/-- `weekend_share` (line 101): guarded division, 0.0 when both totals are 0. -/
def weekendShare (trips : List Nat) : ℚ :=
  if 0 < weekendTotal trips + weekdayTotal trips then
    (weekendTotal trips : ℚ) / ((weekendTotal trips + weekdayTotal trips : Nat) : ℚ)
  else 0

/-- The statistics bundle computed eagerly by lines 80-101 of the script. -/
structure StatsBundle where
  sampleTotal : Nat
  dateMin : Nat
  dateMax : Nat
  dailyAgg : List (Nat × Nat)
  avg : ℚ
  median : ℚ
  peakDate : Nat
  peakTrips : Nat
  monthlyAgg : List (Nat × Nat)
  seasonalAgg : List (String × Nat)
  weekendT : Nat
  weekdayT : Nat
  weekendSh : ℚ

/-- The statistics pipeline over the trip table.  `df['date'].min()` /
`.max()` on an empty column give `NaT` and `idxmax` on an empty series raises
`ValueError`, so the computation only succeeds on a non-empty trip table —
modelled by returning `none` when any of the three is unavailable. -/
def computeStats (trips : List Nat) : Option StatsBundle :=
  match trips.min?, trips.max?, idxmaxRow (daily trips) with
  | some mn, some mx, some pk =>
    some ⟨trips.length, mn, mx, daily trips, avgDaily trips,
          medianOf ((daily trips).map fun p => p.2), pk.1, pk.2,
          monthlySorted trips, seasonal trips,
          weekendTotal trips, weekdayTotal trips, weekendShare trips⟩
  | _, _, _ => none

/-- A cell of the ranking-table frame: missing (`NaN`), text, or a count. -/
inductive PdCell
  | na : PdCell
  | str : String → PdCell
  | num : Int → PdCell

/-- The ranking-table frame as read from CSV: column labels plus rows of cells. -/
structure PdFrame where
  cols : List String
  rows : List (List PdCell)

/-- ASCII lower-casing of a character, on code points (`c.lower()` on the
column names, which are ASCII). -/
def charLowerNat (c : Char) : Nat :=
  if 65 ≤ c.toNat ∧ c.toNat ≤ 90 then c.toNat + 32 else c.toNat

/-- Lower-cased code points of a string. -/
def lowerCodes (s : String) : List Nat := s.data.map charLowerNat

/-- Whether one code list starts with another. -/
def prefixCodes : List Nat → List Nat → Bool
  | [], _ => true
  | _ :: _, [] => false
  | a :: as, b :: bs => a == b && prefixCodes as bs

/-- Whether `needle` occurs contiguously in the list (Python `in` on strings). -/
def substrCodes (needle : List Nat) : List Nat → Bool
  | [] => needle.isEmpty
  | b :: bs => prefixCodes needle (b :: bs) || substrCodes needle bs

/-- `'start' in c.lower() and 'station' in c.lower()` (line 60). -/
def stationMatch (c : String) : Bool :=
  substrCodes (lowerCodes "start") (lowerCodes c) &&
  substrCodes (lowerCodes "station") (lowerCodes c)

/-- `c.lower() in ['count','trips','trip_count','value']` (line 64). -/
def valueMatch (c : String) : Bool :=
  lowerCodes c == lowerCodes "count" || lowerCodes c == lowerCodes "trips" ||
  lowerCodes c == lowerCodes "trip_count" || lowerCodes c == lowerCodes "value"

/-- `DataFrame.rename(columns={old: new})`: every column labelled `old` gets
label `new`; positions and row data are untouched. -/
def pyRename (cols : List String) (old new : String) : List String :=
  cols.map fun c => if c = old then new else c

/-- The renaming loops of lines 58-65: Python iterates over the column labels
captured at loop entry and renames each matching one in the current frame, so
every match is renamed, not only the first. -/
def renameLoop (p : String → Bool) (tgt : String) (cols : List String) : List String :=
  cols.foldl (fun acc c => if p c then pyRename acc c tgt else acc) cols

/-- Lines 58-61: normalize the station-name column labels. -/
def normStationCols (cols : List String) : List String :=
  if "start_station_name" ∈ cols then cols
  else renameLoop stationMatch "start_station_name" cols

/-- Lines 62-65: normalize the value column labels (runs on the columns as
left by the station normalization). -/
def normValueCols (cols : List String) : List String :=
  if "value" ∈ cols then cols
  else renameLoop valueMatch "value" cols

/-- Both normalization passes applied to a frame. -/
def normFrame (f : PdFrame) : PdFrame :=
  ⟨normValueCols (normStationCols f.cols), f.rows⟩

/-- Station-name cell decode; `NaN` is missing. -/
def cellStation : PdCell → Option String
  | PdCell.na => none
  | PdCell.str s => some s
  | PdCell.num v => some (toString v)

/-- Value cell decode; `NaN` is missing.  A numeric CSV column is parsed as
numbers by pandas, so text in the value column is outside the modelled inputs. -/
def cellValue : PdCell → Option Int
  | PdCell.na => none
  | PdCell.num v => some v
  | PdCell.str _ => none

/-- `top20[['start_station_name','value']]` (line 112): selects the two
columns by label, raising `KeyError` when either label is absent. -/
def selectPairs (f : PdFrame) : Except String (List (Option String × Option Int)) :=
  match f.cols.findIdx? (· == "start_station_name"), f.cols.findIdx? (· == "value") with
  | some i, some j =>
    Except.ok (f.rows.map fun r => (cellStation (r.getD i PdCell.na), cellValue (r.getD j PdCell.na)))
  | _, _ => Except.error "KeyError"

/-- `.dropna()` (line 112): keep the rows where both cells are present. -/
def dropna (pairs : List (Option String × Option Int)) : List (String × Int) :=
  pairs.filterMap fun p => p.1.bind fun n => p.2.map fun v => (n, v)

/-- `.dropna().sort_values('value', ascending=False)` (line 112). -/
def prepTable (pairs : List (Option String × Option Int)) : List (String × Int) :=
  sortValuesDescZ (dropna pairs)

/-- `top20_total = int(top20['value'].sum())` (line 113). -/
def top20Total (pairs : List (Option String × Option Int)) : Int :=
  ((prepTable pairs).map fun p => p.2).sum

/-- The convenience scalars of lines 131-141. -/
structure TopStats where
  t1_name : String
  t2_name : String
  t3_name : String
  t1_val : Int
  t2_val : Int
  t3_val : Int
  top1_share : ℚ
  top3_share : ℚ
  top5_share : ℚ

/-- The defaults of lines 139-141: empty names, zero values, zero shares. -/
def defaultTopStats : TopStats := ⟨"", "", "", 0, 0, 0, 0, 0, 0⟩

/-- Lines 131-141: the top-1/2/3 names and values, the top-1 share (the
`share_of_top20` of row 0, hence value/total), and the top-3 / top-5 combined
shares — computed only under `top20_total > 0 and len(top20) >= 5`, otherwise
left at the defaults. -/
def topStats (pairs : List (Option String × Option Int)) : TopStats :=
  let s := prepTable pairs
  let tot := top20Total pairs
  if 0 < tot ∧ 5 ≤ s.length then
    ⟨(s.getD 0 ("", 0)).1, (s.getD 1 ("", 0)).1, (s.getD 2 ("", 0)).1,
     (s.getD 0 ("", 0)).2, (s.getD 1 ("", 0)).2, (s.getD 2 ("", 0)).2,
     ((s.getD 0 ("", 0)).2 : ℚ) / (tot : ℚ),
     (((s.getD 0 ("", 0)).2 + (s.getD 1 ("", 0)).2 + (s.getD 2 ("", 0)).2 : Int) : ℚ) / (tot : ℚ),
     ((((s.take 5).map fun p => p.2).sum : Int) : ℚ) / (tot : ℚ)⟩
  else defaultTopStats

/-- The `share_of_top20` column (lines 114-117): value/total per row when the
total is positive, else 0.0 for every row. -/
def shareTable (pairs : List (Option String × Option Int)) : List (String × Int × ℚ) :=
  (prepTable pairs).map fun p =>
    (p.1, p.2, if 0 < top20Total pairs then (p.2 : ℚ) / (top20Total pairs : ℚ) else 0)

/-- Lines 52-141 for the ranking table: normalize the column labels, then —
when the frame has rows — select the two expected columns (`KeyError` when a
label is still absent), drop incomplete rows, sort, and compute totals, the
share column and the convenience scalars.  A frame with no rows short-circuits
to empty/zero results. -/
def top20Pipeline (f : PdFrame) : Except String (List (String × Int × ℚ) × Int × TopStats) :=
  let g := normFrame f
  if g.rows.isEmpty then Except.ok ([], 0, defaultTopStats)
  else
    match selectPairs g with
    | Except.error e => Except.error e
    | Except.ok pairs => Except.ok (shareTable pairs, top20Total pairs, topStats pairs)

/-- Digit character of `d % 10`. -/
def digitChar (d : Nat) : Char := "0123456789".data.getD (d % 10) '0'

/-- Decimal digits of a number, least-significant first; fuel-driven so that
it evaluates by computation. -/
def digitsRevAux : Nat → Nat → List Char
  | 0, _ => []
  | fuel + 1, n => if n < 10 then [digitChar n] else digitChar (n % 10) :: digitsRevAux fuel (n / 10)

/-- Decimal digits of a number, most-significant first. -/
def digitsOf (n : Nat) : List Char := (digitsRevAux (n + 1) n).reverse

/-- Group a least-significant-first digit list into blocks of three separated
by commas. -/
def commaGroup3 : Nat → List Char → List Char
  | 0, l => l
  | fuel + 1, l => if l.length ≤ 3 then l else l.take 3 ++ ',' :: commaGroup3 fuel (l.drop 3)

/-- Python `f"{x:,}"`: comma-grouped decimal rendering of a natural number. -/
def intComma (n : Nat) : String :=
  String.mk ((commaGroup3 (digitsRevAux (n + 1) n).length (digitsRevAux (n + 1) n)).reverse)

/-- `fmt` (lines 149-153): try `numerize(x)` — an external library, modelled
by an arbitrary `Except` outcome — and on any exception fall back to the
comma-grouped plain rendering; the result is always a plain string. -/
def fmt (numerizeResult : Except String String) (x : Nat) : String :=
  match numerizeResult with
  | Except.ok s => s
  | Except.error _ => intComma x

/-- The spec's description of the computed convenience scalars (§4.3): top-1
name/value/share taken from the head of the sorted table, top-3 and top-5
combined shares as the summed leading values over the total. -/
def specComputedScalars (pairs : List (Option String × Option Int)) : TopStats :=
  let s := prepTable pairs
  let tot := top20Total pairs
  ⟨(s.getD 0 ("", 0)).1, (s.getD 1 ("", 0)).1, (s.getD 2 ("", 0)).1,
   (s.getD 0 ("", 0)).2, (s.getD 1 ("", 0)).2, (s.getD 2 ("", 0)).2,
   ((s.getD 0 ("", 0)).2 : ℚ) / (tot : ℚ),
   ((((s.take 3).map fun p => p.2).sum : Int) : ℚ) / (tot : ℚ),
   ((((s.take 5).map fun p => p.2).sum : Int) : ℚ) / (tot : ℚ)⟩

/-! ### Helper lemmas about the sorting model -/

theorem pairwise_trivial {α : Type} : ∀ l : List α, l.Pairwise fun _ _ => True
  | [] => List.Pairwise.nil
  | _ :: l => List.Pairwise.cons (fun _ _ => trivial) (pairwise_trivial l)

theorem orderedInsert_stable {α : Type} {le : α → α → Prop} [DecidableRel le]
    {r : α → α → Prop} (total : ∀ a b, le a b ∨ le b a)
    (trans : ∀ a b c, le a b → le b c → le a c) (x : α) :
    ∀ ys : List α, ys.Pairwise (fun a b => le a b ∧ (le b a → r a b)) →
      (∀ y ∈ ys, r x y) →
      (ys.orderedInsert le x).Pairwise fun a b => le a b ∧ (le b a → r a b) := by
  intro ys
  induction ys with
  | nil => intro _ _; simp [List.orderedInsert]
  | cons y ys ih =>
    intro hQ hxy
    rw [List.orderedInsert]
    by_cases hxle : le x y
    · rw [if_pos hxle]
      refine List.Pairwise.cons ?_ hQ
      intro z hz
      rcases List.mem_cons.mp hz with hz | hz
      · subst hz
        exact ⟨hxle, fun _ => hxy z (List.mem_cons_self _ _)⟩
      · have hyz : le y z := ((List.pairwise_cons.mp hQ).1 z hz).1
        exact ⟨trans _ _ _ hxle hyz, fun _ => hxy z (List.mem_cons_of_mem _ hz)⟩
    · rw [if_neg hxle]
      have hQtail := (List.pairwise_cons.mp hQ).2
      refine List.Pairwise.cons ?_
        (ih hQtail fun z hz => hxy z (List.mem_cons_of_mem _ hz))
      intro z hz
      rcases (List.mem_orderedInsert _).mp hz with hz | hz
      · subst hz
        have hyx : le y z := (total z y).resolve_left hxle
        exact ⟨hyx, fun h => absurd h hxle⟩
      · exact (List.pairwise_cons.mp hQ).1 z hz

theorem insertionSort_stable {α : Type} {le : α → α → Prop} [DecidableRel le]
    {r : α → α → Prop} (total : ∀ a b, le a b ∨ le b a)
    (trans : ∀ a b c, le a b → le b c → le a c) :
    ∀ l : List α, l.Pairwise r →
      (l.insertionSort le).Pairwise fun a b => le a b ∧ (le b a → r a b) := by
  intro l
  induction l with
  | nil => intro _; simp [List.insertionSort]
  | cons x xs ih =>
    intro h
    have hhead := (List.pairwise_cons.mp h).1
    have htail := (List.pairwise_cons.mp h).2
    rw [List.insertionSort]
    exact orderedInsert_stable total trans x _ (ih htail)
      fun y hy => hhead y ((List.mem_insertionSort _).mp hy)

theorem sortValuesDescN_stable {α : Type} {r : (α × Nat) → (α × Nat) → Prop}
    (l : List (α × Nat)) (h : l.Pairwise r) :
    (sortValuesDescN l).Pairwise fun a b => b.2 ≤ a.2 ∧ (a.2 ≤ b.2 → r b a) := by
  unfold sortValuesDescN
  rw [List.pairwise_reverse]
  exact insertionSort_stable (fun a b => Nat.le_total a.2 b.2)
    (fun _ _ _ h h' => le_trans h h') l h

theorem sortValuesDescN_desc {α : Type} (l : List (α × Nat)) :
    (sortValuesDescN l).Pairwise fun a b => b.2 ≤ a.2 :=
  (sortValuesDescN_stable l (pairwise_trivial l)).imp fun h => h.1

theorem mem_sortValuesDescN {α : Type} {l : List (α × Nat)} {x : α × Nat} :
    x ∈ sortValuesDescN l ↔ x ∈ l := by
  unfold sortValuesDescN
  rw [List.mem_reverse, List.mem_insertionSort]

theorem sortValuesDescZ_perm {α : Type} (l : List (α × Int)) : (sortValuesDescZ l).Perm l :=
  (List.reverse_perm _).trans (List.perm_insertionSort _ l)

theorem prepTable_perm (pairs : List (Option String × Option Int)) :
    (prepTable pairs).Perm (dropna pairs) := sortValuesDescZ_perm _

theorem prepTable_length (pairs : List (Option String × Option Int)) :
    (prepTable pairs).length = (dropna pairs).length := (prepTable_perm pairs).length_eq

theorem prepTable_sum (pairs : List (Option String × Option Int)) :
    ((prepTable pairs).map fun p => p.2).sum = ((dropna pairs).map fun p => p.2).sum :=
  (List.Perm.sum_eq ((prepTable_perm pairs).map fun p => p.2))

/-! ### Helper lemmas about grouping -/

theorem dailyDates_sorted (trips : List Nat) : (dailyDates trips).Pairwise (· ≤ ·) :=
  (List.sorted_insertionSort (· ≤ ·) trips).sublist (List.dedup_sublist _)

theorem daily_pairwise_fst (trips : List Nat) :
    (daily trips).Pairwise fun p q => p.1 ≤ q.1 :=
  List.pairwise_map.mpr (dailyDates_sorted trips)

theorem groupSum_keys_lt (l : List (Nat × Nat)) :
    (groupSum l).Pairwise fun p q => p.1 < q.1 := by
  refine List.pairwise_map.mpr ?_
  have hle : ((((l.map fun p => p.1).insertionSort (· ≤ ·)).dedup)).Pairwise (· ≤ ·) :=
    (List.sorted_insertionSort (· ≤ ·) _).sublist (List.dedup_sublist _)
  have hne : ((((l.map fun p => p.1).insertionSort (· ≤ ·)).dedup)).Pairwise (· ≠ ·) :=
    List.nodup_dedup _
  exact (hle.and hne).imp fun h => lt_of_le_of_ne h.1 h.2

theorem monthly_keys_lt (trips : List Nat) :
    (monthly trips).Pairwise fun p q => p.1 < q.1 := groupSum_keys_lt _

/-! ### Helper lemmas about `idxmaxRow` -/

theorem idxmaxRow_cons_isSome (x : Nat × Nat) (xs : List (Nat × Nat)) :
    ∃ p, idxmaxRow (x :: xs) = some p := by
  cases h : idxmaxRow xs with
  | none => exact ⟨x, by simp [idxmaxRow, h]⟩
  | some y =>
    simp only [idxmaxRow, h]
    split
    · exact ⟨x, rfl⟩
    · exact ⟨y, rfl⟩

theorem idxmaxRow_none_eq_nil {l : List (Nat × Nat)} (h : idxmaxRow l = none) : l = [] := by
  cases l with
  | nil => rfl
  | cons x xs =>
    obtain ⟨p, hp⟩ := idxmaxRow_cons_isSome x xs
    rw [hp] at h
    cases h

theorem idxmaxRow_mem : ∀ {l : List (Nat × Nat)} {p : Nat × Nat},
    idxmaxRow l = some p → p ∈ l := by
  intro l
  induction l with
  | nil => intro p hp; cases hp
  | cons x xs ih =>
    intro p hp
    cases hxs : idxmaxRow xs with
    | none =>
      simp only [idxmaxRow, hxs] at hp
      cases hp
      exact List.mem_cons_self _ _
    | some y =>
      simp only [idxmaxRow, hxs] at hp
      split at hp
      · cases hp; exact List.mem_cons_self _ _
      · cases hp; exact List.mem_cons_of_mem _ (ih hxs)

theorem idxmaxRow_max : ∀ {l : List (Nat × Nat)} {p : Nat × Nat},
    idxmaxRow l = some p → ∀ q ∈ l, q.2 ≤ p.2 := by
  intro l
  induction l with
  | nil => intro p hp; cases hp
  | cons x xs ih =>
    intro p hp q hq
    cases hxs : idxmaxRow xs with
    | none =>
      have hnil := idxmaxRow_none_eq_nil hxs
      subst hnil
      simp only [idxmaxRow] at hp
      cases hp
      rcases List.mem_cons.mp hq with hq | hq
      · exact hq ▸ le_refl _
      · cases hq
    | some y =>
      simp only [idxmaxRow, hxs] at hp
      rcases List.mem_cons.mp hq with hq | hq
      · subst hq
        split at hp
        · cases hp; exact le_refl _
        · cases hp
          next hcmp => exact le_of_lt (Nat.lt_of_not_le hcmp)
      · have hqy : q.2 ≤ y.2 := ih hxs q hq
        split at hp
        · cases hp
          next hcmp => exact le_trans hqy hcmp
        · cases hp; exact hqy

theorem idxmaxRow_first : ∀ {l : List (Nat × Nat)} {p : Nat × Nat},
    l.Pairwise (fun a b => a.1 ≤ b.1) → idxmaxRow l = some p →
      ∀ q ∈ l, q.2 = p.2 → p.1 ≤ q.1 := by
  intro l
  induction l with
  | nil => intro p _ hp; cases hp
  | cons x xs ih =>
    intro p hsort hp q hq heq
    have hx := (List.pairwise_cons.mp hsort).1
    have hxs' := (List.pairwise_cons.mp hsort).2
    cases hxs : idxmaxRow xs with
    | none =>
      have hnil := idxmaxRow_none_eq_nil hxs
      subst hnil
      simp only [idxmaxRow] at hp
      cases hp
      rcases List.mem_cons.mp hq with hq | hq
      · exact hq ▸ le_refl _
      · cases hq
    | some y =>
      simp only [idxmaxRow, hxs] at hp
      rcases List.mem_cons.mp hq with hq | hq
      · subst hq
        split at hp
        · cases hp; exact le_refl _
        · cases hp
          next hcmp => exact absurd (heq ▸ le_refl _) hcmp
      · split at hp
        · cases hp; exact hx q hq
        · cases hp; exact ih hxs' hxs q hq heq

/-! ### Helper lemmas about the column-renaming loops -/

theorem foldl_rename_eq (p : String → Bool) (tgt : String) :
    ∀ todo acc : List String, todo.Nodup → tgt ∉ todo →
      todo.foldl (fun acc c => if p c then pyRename acc c tgt else acc) acc =
        acc.map fun c => if c ∈ todo ∧ p c then tgt else c := by
  intro todo
  induction todo with
  | nil =>
    intro acc _ _
    simp
  | cons t ts ih =>
    intro acc hnd hmem
    have hnd' : ts.Nodup := (List.nodup_cons.mp hnd).2
    have htts : t ∉ ts := (List.nodup_cons.mp hnd).1
    have hmem' : tgt ∉ ts := fun h => hmem (List.mem_cons_of_mem _ h)
    rw [List.foldl_cons]
    by_cases hp : p t
    · rw [if_pos hp]
      rw [ih (pyRename acc t tgt) hnd' hmem']
      unfold pyRename
      rw [List.map_map]
      refine List.map_congr_left ?_
      intro c _
      simp only [Function.comp_apply]
      by_cases hc : c = t
      · subst hc
        simp [hp, hmem', List.mem_cons]
      · simp [hc, List.mem_cons]
    · rw [if_neg hp]
      rw [ih acc hnd' hmem']
      refine List.map_congr_left ?_
      intro c _
      by_cases hc : c = t
      · subst hc
        rw [if_neg fun hcon => htts hcon.1, if_neg fun hcon => hp hcon.2]
      · simp [hc, List.mem_cons]

theorem normStationCols_eq_map (cols : List String) (hnd : cols.Nodup)
    (hmem : "start_station_name" ∉ cols) :
    normStationCols cols =
      cols.map fun c => if stationMatch c then "start_station_name" else c := by
  unfold normStationCols
  rw [if_neg hmem]
  unfold renameLoop
  rw [foldl_rename_eq stationMatch _ cols cols hnd hmem]
  refine List.map_congr_left ?_
  intro c hc
  by_cases hp : stationMatch c
  · rw [if_pos ⟨hc, hp⟩, if_pos hp]
  · rw [if_neg fun hcon => hp hcon.2, if_neg hp]

theorem normValueCols_eq_map (cols : List String) (hnd : cols.Nodup)
    (hmem : "value" ∉ cols) :
    normValueCols cols = cols.map fun c => if valueMatch c then "value" else c := by
  unfold normValueCols
  rw [if_neg hmem]
  unfold renameLoop
  rw [foldl_rename_eq valueMatch _ cols cols hnd hmem]
  refine List.map_congr_left ?_
  intro c hc
  by_cases hp : valueMatch c
  · rw [if_pos ⟨hc, hp⟩, if_pos hp]
  · rw [if_neg fun hcon => hp hcon.2, if_neg hp]

/-! ### Helper lemmas about the seasonal grouping -/

theorem mem_seasonal (trips : List Nat) (s : String) (n : Nat) :
    (s, n) ∈ seasonal trips ↔
      s ∈ trips.map season_of ∧ n = (trips.map season_of).count s := by
  unfold seasonal
  rw [mem_sortValuesDescN, List.mem_map]
  constructor
  · rintro ⟨a, ha, heq⟩
    have h1 : a = s := congrArg Prod.fst heq
    subst h1
    refine ⟨(List.mem_insertionSort _).mp (List.mem_dedup.mp ha), ?_⟩
    exact (congrArg Prod.snd heq).symm
  · rintro ⟨hs, hn⟩
    exact ⟨s, List.mem_dedup.mpr ((List.mem_insertionSort _).mpr hs), by rw [hn]⟩

/-! ### Helper lemmas about the comma-grouped formatter -/

theorem digitChar_ne_comma (d : Nat) : digitChar d ≠ ',' := by
  unfold digitChar
  have h : d % 10 < 10 := Nat.mod_lt _ (by decide)
  generalize d % 10 = k at h ⊢
  interval_cases k <;> decide

theorem digitsRevAux_ne_comma : ∀ (fuel n : Nat), ∀ c ∈ digitsRevAux fuel n, c ≠ ',' := by
  intro fuel
  induction fuel with
  | zero => intro n c hc; cases hc
  | succ fuel ih =>
    intro n c hc
    unfold digitsRevAux at hc
    split at hc
    · rw [List.mem_singleton] at hc
      exact hc ▸ digitChar_ne_comma n
    · rcases List.mem_cons.mp hc with hc | hc
      · exact hc ▸ digitChar_ne_comma (n % 10)
      · exact ih _ c hc

theorem commaGroup3_filter : ∀ (fuel : Nat) (l : List Char),
    (∀ c ∈ l, c ≠ ',') → l.length ≤ fuel →
      (commaGroup3 fuel l).filter (fun c => c != ',') = l := by
  intro fuel
  induction fuel with
  | zero =>
    intro l _ hlen
    have hnil : l = [] := List.length_eq_zero.mp (Nat.le_zero.mp hlen)
    subst hnil
    rfl
  | succ fuel ih =>
    intro l hl hlen
    unfold commaGroup3
    by_cases h3 : l.length ≤ 3
    · rw [if_pos h3]
      exact List.filter_eq_self.mpr fun a ha => by simpa using hl a ha
    · rw [if_neg h3]
      rw [List.filter_append]
      have htake : (l.take 3).filter (fun c => c != ',') = l.take 3 :=
        List.filter_eq_self.mpr fun a ha => by
          simpa using hl a ((List.take_sublist 3 l).subset ha)
      have hdrop : (commaGroup3 fuel (l.drop 3)).filter (fun c => c != ',') = l.drop 3 :=
        ih _ (fun c hc => hl c ((List.drop_sublist 3 l).subset hc))
          (by rw [List.length_drop]; omega)
      rw [htake, List.filter_cons]
      simp only [bne_self_eq_false, if_false, Bool.false_eq_true]
      rw [hdrop]
      exact List.take_append_drop 3 l

theorem intComma_filter (x : Nat) :
    (intComma x).data.filter (fun c => c != ',') = digitsOf x := by
  have h1 : (intComma x).data =
      (commaGroup3 (digitsRevAux (x + 1) x).length (digitsRevAux (x + 1) x)).reverse := rfl
  rw [h1, List.filter_reverse,
    commaGroup3_filter _ _ (fun c hc => digitsRevAux_ne_comma _ _ c hc) (le_refl _)]
  rfl

/-! ### Additional helper lemmas for the statistics bundle -/

theorem daily_ne_nil (t : Nat) (ts : List Nat) : daily (t :: ts) ≠ [] := by
  unfold daily dailyDates
  rw [Ne, List.map_eq_nil_iff]
  intro h
  have ht : t ∈ ((t :: ts).insertionSort (· ≤ ·)).dedup :=
    List.mem_dedup.mpr ((List.mem_insertionSort _).mpr (List.mem_cons_self _ _))
  rw [h] at ht
  cases ht

theorem idxmaxRow_daily_isSome (t : Nat) (ts : List Nat) :
    ∃ p, idxmaxRow (daily (t :: ts)) = some p := by
  cases hd : daily (t :: ts) with
  | nil => exact absurd hd (daily_ne_nil t ts)
  | cons x xs => exact idxmaxRow_cons_isSome x xs

theorem take3_sum_eq (l : List (String × Int)) (hlen : 5 ≤ l.length) :
    ((l.take 3).map fun p => p.2).sum =
      (l.getD 0 ("", 0)).2 + (l.getD 1 ("", 0)).2 + (l.getD 2 ("", 0)).2 := by
  rcases l with _ | ⟨a, _ | ⟨b, _ | ⟨c, rest⟩⟩⟩
  · simp at hlen
  · simp at hlen
  · simp at hlen
  · simp [List.getD]
    ring

/-! ### The claims -/

/-- Claim C1 (code_bug): the spec demands that a non-empty ranking table whose
columns match neither the exact names nor the normalization patterns be treated
as empty with zero/empty downstream results and no error; the script instead
reaches `top20[['start_station_name','value']]` (line 112), whose column
selection fails with a `KeyError`.  Evaluated here at a one-row table with
columns `station_id`/`cnt`, which match no pattern. -/
theorem top20_schema_mismatch_raises_keyerror :
    top20Pipeline ⟨["station_id", "cnt"], [[PdCell.num 3, PdCell.num 4]]⟩ =
      Except.error "KeyError" := rfl

/-- Claim C2 (counterexample): on the Scenario-A trips (one Winter trip, two
Summer trips) the seasonal table has exactly two entries — the zero-count
seasons Spring and Fall are absent, because `groupby('season')` only produces
groups that occur.  This refutes "all four seasons present even when zero". -/
theorem seasonal_omits_zero_seasons_cex :
    seasonal [daysFromCivil 2022 1 5, daysFromCivil 2022 6 10, daysFromCivil 2022 6 10] =
        [("Summer", 2), ("Winter", 1)] ∧
    "Spring" ∉
      (seasonal [daysFromCivil 2022 1 5, daysFromCivil 2022 6 10, daysFromCivil 2022 6 10]).map
        (fun p => p.1) ∧
    "Fall" ∉
      (seasonal [daysFromCivil 2022 1 5, daysFromCivil 2022 6 10, daysFromCivil 2022 6 10]).map
        (fun p => p.1) := by
  refine ⟨by decide, by decide, by decide⟩

/-- Claim C2 (amended): the seasonal aggregates contain exactly one entry per
season that has at least one trip (a season with zero trips is absent), each
carrying that season's trip count, and the entries are sorted descending by
count. -/
theorem seasonal_entries_iff_nonzero (trips : List Nat) :
    (∀ s n, (s, n) ∈ seasonal trips ↔
      ((∃ t ∈ trips, season_of t = s) ∧ n = (trips.map season_of).count s)) ∧
    (seasonal trips).Pairwise fun a b => b.2 ≤ a.2 := by
  constructor
  · intro s n
    rw [mem_seasonal]
    constructor
    · rintro ⟨hs, hn⟩
      rcases List.mem_map.mp hs with ⟨t, ht, hts⟩
      exact ⟨⟨t, ht, hts⟩, hn⟩
    · rintro ⟨⟨t, ht, hts⟩, hn⟩
      exact ⟨List.mem_map.mpr ⟨t, ht, hts⟩, hn⟩
  · exact sortValuesDescN_desc _

/-- Witness for the amended C2 theorem at the Scenario-A trips. -/
theorem seasonal_entries_iff_nonzero_witness :
    ("Summer", 2) ∈
      seasonal [daysFromCivil 2022 1 5, daysFromCivil 2022 6 10, daysFromCivil 2022 6 10] := by
  have h := (seasonal_entries_iff_nonzero
    [daysFromCivil 2022 1 5, daysFromCivil 2022 6 10, daysFromCivil 2022 6 10]).1 "Summer" 2
  exact h.mpr (by decide)

/-- Claim C3 (counterexample): a ranking table with five valid rows all of
value 0 has at least 5 valid rows, yet every convenience scalar stays at its
default (`t1_name` is the empty string although the top row is station "E").
This refutes the "if" direction of "computed if and only if at least 5 valid
rows": the guard additionally requires a positive total. -/
theorem topStats_five_zero_rows_cex :
    5 ≤ (dropna [(some "A", some (0 : Int)), (some "B", some 0), (some "C", some 0),
        (some "D", some 0), (some "E", some 0)]).length ∧
    topStats [(some "A", some (0 : Int)), (some "B", some 0), (some "C", some 0),
        (some "D", some 0), (some "E", some 0)] = defaultTopStats ∧
    ((prepTable [(some "A", some (0 : Int)), (some "B", some 0), (some "C", some 0),
        (some "D", some 0), (some "E", some 0)]).getD 0 ("", 0)).1 = "E" ∧
    ("E" : String) ≠ "" := by
  refine ⟨by decide, rfl, by decide, by decide⟩

/-- Claim C3 (amended): the convenience scalars are computed if and only if
the ranking table has at least 5 valid rows AND a positive total value;
otherwise (in particular whenever fewer than 5 valid rows) they are the
empty-string/0/0.0 defaults. -/
theorem topStats_eq_spec_iff_threshold (pairs : List (Option String × Option Int)) :
    topStats pairs =
      if 5 ≤ (dropna pairs).length ∧ 0 < top20Total pairs then specComputedScalars pairs
      else defaultTopStats := by
  by_cases h : 0 < top20Total pairs ∧ 5 ≤ (prepTable pairs).length
  · have hcond : 5 ≤ (dropna pairs).length ∧ 0 < top20Total pairs := by
      refine ⟨?_, h.1⟩
      rw [← prepTable_length pairs]
      exact h.2
    rw [if_pos hcond]
    simp only [topStats, specComputedScalars]
    rw [if_pos h, take3_sum_eq (prepTable pairs) h.2]
  · have hcond : ¬(5 ≤ (dropna pairs).length ∧ 0 < top20Total pairs) := by
      intro hcon
      refine h ⟨hcon.2, ?_⟩
      rw [prepTable_length pairs]
      exact hcon.1
    rw [if_neg hcond]
    simp only [topStats]
    rw [if_neg h]

/-- Claim C4 (counterexample): a single weekday trip (Monday 2022-06-06) gives
`weekendShare = 0.0` while `weekendTotal + weekdayTotal = 1 ≠ 0`, refuting
"weekendShare is 0.0 exactly when weekendTotal + weekdayTotal is 0". -/
theorem weekendShare_weekday_only_cex :
    weekendShare [daysFromCivil 2022 6 6] = 0 ∧
    weekendTotal [daysFromCivil 2022 6 6] + weekdayTotal [daysFromCivil 2022 6 6] ≠ 0 := by
  constructor
  · have h1 : weekendTotal [daysFromCivil 2022 6 6] = 0 := rfl
    have h2 : weekdayTotal [daysFromCivil 2022 6 6] = 1 := rfl
    unfold weekendShare
    rw [h1, h2]
    norm_num
  · decide

/-- Claim C4 (amended): `weekendShare` is 0.0 exactly when `weekendTotal` is 0
(weekday-only inputs give a positive combined total with zero share), and
whenever the combined total is nonzero the share equals
`weekendTotal / (weekendTotal + weekdayTotal)`; the division is guarded so the
zero-denominator case yields 0.0. -/
theorem weekendShare_zero_iff_guarded (trips : List Nat) :
    (weekendShare trips = 0 ↔ weekendTotal trips = 0) ∧
    (weekendTotal trips + weekdayTotal trips ≠ 0 →
      weekendShare trips =
        (weekendTotal trips : ℚ) / ((weekendTotal trips + weekdayTotal trips : Nat) : ℚ)) := by
  constructor
  · by_cases h : 0 < weekendTotal trips + weekdayTotal trips
    · unfold weekendShare
      rw [if_pos h]
      have hs : ((weekendTotal trips + weekdayTotal trips : Nat) : ℚ) ≠ 0 :=
        Nat.cast_ne_zero.mpr (Nat.pos_iff_ne_zero.mp h)
      rw [div_eq_zero_iff]
      constructor
      · rintro (h0 | h0)
        · exact Nat.cast_eq_zero.mp h0
        · exact absurd h0 hs
      · intro h0
        exact Or.inl (Nat.cast_eq_zero.mpr h0)
    · have hz : weekendTotal trips + weekdayTotal trips = 0 := Nat.eq_zero_of_not_pos h
      have hw : weekendTotal trips = 0 := Nat.eq_zero_of_add_eq_zero_right hz
      unfold weekendShare
      rw [if_neg h]
      simp [hw]
  · intro hne
    unfold weekendShare
    rw [if_pos (Nat.pos_of_ne_zero hne)]

/-- Witness for the amended C4 theorem on a Monday + Saturday pair of trips. -/
theorem weekendShare_zero_iff_guarded_witness :
    weekendShare [daysFromCivil 2022 6 6, daysFromCivil 2022 6 11] =
      ((weekendTotal [daysFromCivil 2022 6 6, daysFromCivil 2022 6 11] : ℚ)) /
        ((weekendTotal [daysFromCivil 2022 6 6, daysFromCivil 2022 6 11] +
          weekdayTotal [daysFromCivil 2022 6 6, daysFromCivil 2022 6 11] : Nat) : ℚ) :=
  (weekendShare_zero_iff_guarded [daysFromCivil 2022 6 6, daysFromCivil 2022 6 11]).2 (by decide)

/-- Claim C5 (counterexample): one trip in January 2022 (month key 24264) and
one in February 2022 (key 24265) give equal monthly counts, and the sorted
output lists the LATER month first — `sort_values(ascending=False)` reverses
the stable ascending argsort, reversing ties — refuting "the earlier month
precedes the later one". -/
theorem monthlySorted_tie_later_month_first_cex :
    (monthlySorted [daysFromCivil 2022 1 5, daysFromCivil 2022 2 5]).map (fun p => p.1) =
        [24265, 24264] ∧
    (monthlySorted [daysFromCivil 2022 1 5, daysFromCivil 2022 2 5]).map (fun p => p.2) =
        [1, 1] ∧
    (24264 : Nat) < 24265 := by
  refine ⟨by decide, by decide, by decide⟩

/-- Claim C5 (amended): the monthly aggregates are sorted descending by trip
count, and for every pair of months with equal counts the chronologically
LATER month precedes the earlier one in the sorted output (the descending sort
reverses the stable ascending pass, so ties come out in reverse chronological
order). -/
theorem monthlySorted_desc_ties_reversed (trips : List Nat) :
    (monthlySorted trips).Pairwise fun a b => b.2 ≤ a.2 ∧ (a.2 ≤ b.2 → b.1 < a.1) := by
  unfold monthlySorted
  exact sortValuesDescN_stable _ (monthly_keys_lt trips)

/-- Witness for the amended C5 theorem on the two-month tie input. -/
theorem monthlySorted_desc_ties_reversed_witness :
    (monthlySorted [daysFromCivil 2022 1 5, daysFromCivil 2022 2 5]).Pairwise
      fun a b => b.2 ≤ a.2 ∧ (a.2 ≤ b.2 → b.1 < a.1) :=
  monthlySorted_desc_ties_reversed [daysFromCivil 2022 1 5, daysFromCivil 2022 2 5]

/-- Claim C6 (counterexample): on the empty trip table the statistics
computation fails (empty-series min/argmax) instead of producing a bundle
with an empty-sentinel date range. -/
theorem computeStats_empty_none_cex : computeStats ([] : List Nat) = none := rfl

/-- Claim C6 (amended): the statistics pipeline is NOT total over the empty
trip table — it fails there (`idxmax`/`min` of an empty series) rather than
producing a sentinel — and for every non-empty trip collection the bundle is
produced with `dateRange = (min date, max date)`. -/
theorem computeStats_total_on_nonempty :
    computeStats [] = none ∧
    ∀ trips : List Nat, trips ≠ [] → ∃ b, computeStats trips = some b ∧
      trips.min? = some b.dateMin ∧ trips.max? = some b.dateMax := by
  refine ⟨rfl, ?_⟩
  intro trips hne
  match trips, hne with
  | t :: ts, _ =>
    obtain ⟨p, hp⟩ := idxmaxRow_daily_isSome t ts
    refine ⟨⟨(t :: ts).length, ts.foldl min t, ts.foldl max t, daily (t :: ts),
      avgDaily (t :: ts), medianOf ((daily (t :: ts)).map fun q => q.2), p.1, p.2,
      monthlySorted (t :: ts), seasonal (t :: ts), weekendTotal (t :: ts),
      weekdayTotal (t :: ts), weekendShare (t :: ts)⟩, ?_, rfl, rfl⟩
    unfold computeStats
    rw [hp]
    rfl

/-- Witness for the amended C6 theorem on a one-trip table. -/
theorem computeStats_total_on_nonempty_witness :
    ∃ b, computeStats [daysFromCivil 2022 1 5] = some b ∧
      [daysFromCivil 2022 1 5].min? = some b.dateMin ∧
      [daysFromCivil 2022 1 5].max? = some b.dateMax :=
  computeStats_total_on_nonempty.2 [daysFromCivil 2022 1 5] (by decide)

/-- Claim C7: for every non-empty trip collection the statistics bundle is
produced and its peak day is a daily aggregate of maximal count such that
every date reaching that count is no earlier — i.e. the earliest maximal date
is selected (`idxmax` returns the first maximum of the date-ascending frame). -/
theorem peak_first_max (trips : List Nat) (hne : trips ≠ []) :
    ∃ b, computeStats trips = some b ∧
      (b.peakDate, b.peakTrips) ∈ daily trips ∧
      (∀ q ∈ daily trips, q.2 ≤ b.peakTrips) ∧
      (∀ q ∈ daily trips, q.2 = b.peakTrips → b.peakDate ≤ q.1) := by
  match trips, hne with
  | t :: ts, _ =>
    obtain ⟨p, hp⟩ := idxmaxRow_daily_isSome t ts
    refine ⟨⟨(t :: ts).length, ts.foldl min t, ts.foldl max t, daily (t :: ts),
      avgDaily (t :: ts), medianOf ((daily (t :: ts)).map fun q => q.2), p.1, p.2,
      monthlySorted (t :: ts), seasonal (t :: ts), weekendTotal (t :: ts),
      weekdayTotal (t :: ts), weekendShare (t :: ts)⟩, ?_, ?_, ?_, ?_⟩
    · unfold computeStats
      rw [hp]
      rfl
    · exact idxmaxRow_mem hp
    · exact fun q hq => idxmaxRow_max hp q hq
    · exact fun q hq heq => idxmaxRow_first (daily_pairwise_fst _) hp q hq heq

/-- Witness for C7 on the Scenario-A trips (peak 2022-06-10 with 2 trips). -/
theorem peak_first_max_witness :
    ∃ b, computeStats
        [daysFromCivil 2022 1 5, daysFromCivil 2022 6 10, daysFromCivil 2022 6 10] = some b ∧
      (b.peakDate, b.peakTrips) ∈
        daily [daysFromCivil 2022 1 5, daysFromCivil 2022 6 10, daysFromCivil 2022 6 10] ∧
      (∀ q ∈ daily [daysFromCivil 2022 1 5, daysFromCivil 2022 6 10, daysFromCivil 2022 6 10],
        q.2 ≤ b.peakTrips) ∧
      (∀ q ∈ daily [daysFromCivil 2022 1 5, daysFromCivil 2022 6 10, daysFromCivil 2022 6 10],
        q.2 = b.peakTrips → b.peakDate ≤ q.1) :=
  peak_first_max [daysFromCivil 2022 1 5, daysFromCivil 2022 6 10, daysFromCivil 2022 6 10]
    (by decide)

/-- Claim C8: the compact-number formatter is a total no-throw path — whatever
the external `numerize` call does, a failure is caught and the comma-grouped
plain rendering `intComma` is returned (and a success is returned as-is); the
fallback itself is a faithful decimal rendering: deleting its commas recovers
exactly the decimal digits of the input.  Shown also at a concrete value. -/
theorem fmt_never_raises_fallback :
    (∀ (x : Nat) (e : String), fmt (Except.error e) x = intComma x) ∧
    (∀ (x : Nat) (s : String), fmt (Except.ok s) x = s) ∧
    (∀ x : Nat, (intComma x).data.filter (fun c => c != ',') = digitsOf x) ∧
    intComma 1234567 = "1,234,567" :=
  ⟨fun _ _ => rfl, fun _ _ => rfl, fun x => intComma_filter x, by decide⟩

/-- Claim C9: even with 5 or more valid ranking rows, a zero total value sends
every convenience scalar to its default — the guard at line 131 additionally
requires `top20_total > 0`. -/
theorem topStats_zero_total_defaults (pairs : List (Option String × Option Int))
    (h5 : 5 ≤ (dropna pairs).length)
    (hsum : ((dropna pairs).map fun p => p.2).sum = 0) :
    topStats pairs = defaultTopStats := by
  have htot : top20Total pairs = 0 := by
    unfold top20Total
    rw [prepTable_sum pairs, hsum]
  simp only [topStats]
  rw [if_neg]
  intro hcon
  rw [htot] at hcon
  exact absurd hcon.1 (lt_irrefl 0)

/-- Witness for C9 on five valid rows of value 0. -/
theorem topStats_zero_total_defaults_witness :
    topStats [(some "A", some (0 : Int)), (some "B", some 0), (some "C", some 0),
        (some "D", some 0), (some "E", some 0)] = defaultTopStats :=
  topStats_zero_total_defaults
    [(some "A", some (0 : Int)), (some "B", some 0), (some "C", some 0),
      (some "D", some 0), (some "E", some 0)] (by decide) (by decide)

/-- Claim C10: when no column is named exactly `start_station_name`, the
normalization loop renames EVERY column whose lower-cased name contains both
"start" and "station" (not only the first match), so several qualifying
columns end up as duplicate `start_station_name` labels; the `value` loop
likewise renames every synonym match.  Stated in general (for duplicate-free
column lists, as produced by `read_csv`) and at concrete two-match tables. -/
theorem normalize_renames_every_match :
    (∀ cols : List String, cols.Nodup → "start_station_name" ∉ cols →
      normStationCols cols =
        cols.map fun c => if stationMatch c then "start_station_name" else c) ∧
    (∀ cols : List String, cols.Nodup → "value" ∉ cols →
      normValueCols cols = cols.map fun c => if valueMatch c then "value" else c) ∧
    normStationCols ["Start Station", "start_station_id"] =
      ["start_station_name", "start_station_name"] ∧
    normValueCols ["Count", "TRIPS"] = ["value", "value"] :=
  ⟨normStationCols_eq_map, normValueCols_eq_map, by decide, by decide⟩

/-- Witness for C10: the general renaming characterization applied to a
concrete column list, hypotheses discharged by computation. -/
theorem normalize_renames_every_match_witness :
    normStationCols ["Start Station", "other"] = ["start_station_name", "other"] :=
  (normalize_renames_every_match.1 ["Start Station", "other"] (by decide) (by decide)).trans
    (by decide)
